import Mathlib

/-!
Verification development for a WhatsApp Cloud API webhook receiver
(source: index.js).  The service completes the platform verification
handshake (GET /webhook), authenticates inbound deliveries with an
HMAC-SHA256 signature over the raw request bytes (middleware
verifySignature), walks the parsed JSON envelope to find inbound text
messages, fires an automated reply per message (sendTextMessage), and
acknowledges the delivery with 200.

Embedding conventions:
  - bytes are Nat values below 256, byte sequences are List Nat;
  - JavaScript strings are Lean String; string keys and header values are
    compared with decidable equality, mirroring strict equality of JS;
  - JavaScript undefined is Option.none; parsed JSON values are the
    inductive Json below (numbers are modelled as Int, which covers every
    payload the handler inspects, since the code never does numeric
    arithmetic on payload fields);
  - property access on null or undefined raises TypeError, modelled with
    Except (JsErr) or an error component threaded through the handler;
  - the HTTP framework (express), body parsing and logging are external
    collaborators: the handler functions receive the captured raw body,
    the header value and the parsed body as arguments, and return the
    status code and the outbound sends they initiated;
  - the network is a parameter (net : OutboundReq -> NetResult), so that
    theorems can quantify over every outcome of the outbound HTTP call.
-/

/-! ## SHA-256 and HMAC-SHA256 (crypto.createHmac of node, RFC 6234 / RFC 2104)

The verifier calls crypto.createHmac with algorithm sha256 and a string
key; node takes the utf8 bytes of the key.  The implementation below is
executable and is checked against published test vectors in the theorems
section (sha256 of the empty message, RFC 4231 test case 2). -/

/-- Modulus of 32-bit words. -/
def w32 : Nat := 4294967296

/-- Right rotation of a 32-bit word by n bits. -/
def rotr (n x : Nat) : Nat :=
  (x >>> n) ||| ((x <<< (32 - n)) &&& (w32 - 1))

/-- Round constants of SHA-256. -/
def sha256K : List Nat :=
  [1116352408, 1899447441, 3049323471, 3921009573, 961987163, 1508970993,
   2453635748, 2870763221, 3624381080, 310598401, 607225278, 1426881987,
   1925078388, 2162078206, 2614888103, 3248222580, 3835390401, 4022224774,
   264347078, 604807628, 770255983, 1249150122, 1555081692, 1996064986,
   2554220882, 2821834349, 2952996808, 3210313671, 3336571891, 3584528711,
   113926993, 338241895, 666307205, 773529912, 1294757372, 1396182291,
   1695183700, 1986661051, 2177026350, 2456956037, 2730485921, 2820302411,
   3259730800, 3345764771, 3516065817, 3600352804, 4094571909, 275423344,
   430227734, 506948616, 659060556, 883997877, 958139571, 1322822218,
   1537002063, 1747873779, 1955562222, 2024104815, 2227730452, 2361852424,
   2428436474, 2756734187, 3204031479, 3329325298]

/-- Initial hash state of SHA-256. -/
def sha256H0 : List Nat :=
  [1779033703, 3144134277, 1013904242, 2773480762, 1359893119, 2600822924,
   528734635, 1541459225]

/-- Big-endian grouping of bytes into 32-bit words. -/
def bytesToWords : List Nat → List Nat
  | a :: b :: c :: d :: rest => (a * 16777216 + b * 65536 + c * 256 + d) :: bytesToWords rest
  | _ => []

/-- Message padding of SHA-256: a 1 bit, zeros, and the 64-bit bit length. -/
def sha256Pad (msg : List Nat) : List Nat :=
  let len := msg.length
  let bitLen := len * 8
  let zeros := (64 - ((len + 9) % 64)) % 64
  msg ++ [128] ++ List.replicate zeros 0 ++
    [(bitLen >>> 56) &&& 255, (bitLen >>> 48) &&& 255,
     (bitLen >>> 40) &&& 255, (bitLen >>> 32) &&& 255,
     (bitLen >>> 24) &&& 255, (bitLen >>> 16) &&& 255,
     (bitLen >>> 8) &&& 255, bitLen &&& 255]

/-- Message schedule extension: the word list is kept most recent first, so
the displaced indices 1, 6, 14, 15 are the scheduled words w[i-2], w[i-7],
w[i-15] and w[i-16]. -/
def msgSchedule : Nat → List Nat → List Nat
  | 0, ws => ws.reverse
  | n + 1, ws =>
      let wm2 := ws.getD 1 0
      let wm7 := ws.getD 6 0
      let wm15 := ws.getD 14 0
      let wm16 := ws.getD 15 0
      let s0 := (rotr 7 wm15) ^^^ (rotr 18 wm15) ^^^ (wm15 >>> 3)
      let s1 := (rotr 17 wm2) ^^^ (rotr 19 wm2) ^^^ (wm2 >>> 10)
      msgSchedule n (((wm16 + s0 + wm7 + s1) % w32) :: ws)

/-- One round of the SHA-256 compression function on the eight-word state. -/
def compressStep (st : List Nat) (kw : Nat × Nat) : List Nat :=
  match st with
  | [a, b, c, d, e, f, g, h] =>
    let bigS1 := (rotr 6 e) ^^^ (rotr 11 e) ^^^ (rotr 25 e)
    let ch := (e &&& f) ^^^ ((e ^^^ (w32 - 1)) &&& g)
    let temp1 := (h + bigS1 + ch + kw.1 + kw.2) % w32
    let bigS0 := (rotr 2 a) ^^^ (rotr 13 a) ^^^ (rotr 22 a)
    let maj := (a &&& b) ^^^ (a &&& c) ^^^ (b &&& c)
    let temp2 := (bigS0 + maj) % w32
    [(temp1 + temp2) % w32, a, b, c, (d + temp1) % w32, e, f, g]
  | _ => st

/-- Processing of one 64-byte block. -/
def sha256Block (h : List Nat) (block : List Nat) : List Nat :=
  let ws := msgSchedule 48 (bytesToWords block).reverse
  let st := (sha256K.zip ws).foldl compressStep h
  (h.zip st).map (fun p => (p.1 + p.2) % w32)

/-- Fuel-bounded splitting into 64-byte chunks (structural, so that the
kernel can evaluate it on concrete inputs). -/
def chunksAux : Nat → List Nat → List (List Nat)
  | 0, _ => []
  | _, [] => []
  | fuel + 1, a :: rest => ((a :: rest).take 64) :: chunksAux fuel ((a :: rest).drop 64)

/-- Splitting of the padded message into 64-byte chunks. -/
def chunks (l : List Nat) : List (List Nat) := chunksAux l.length l

/-- SHA-256 of a byte sequence, as a sequence of 32 bytes. -/
def sha256 (msg : List Nat) : List Nat :=
  let hs := (chunks (sha256Pad msg)).foldl sha256Block sha256H0
  hs.flatMap (fun w =>
    [w >>> 24, (w >>> 16) &&& 255,
     (w >>> 8) &&& 255, w &&& 255])

/-- HMAC-SHA256 with byte-sequence key and message (RFC 2104, block 64). -/
def hmacSha256 (key msg : List Nat) : List Nat :=
  let k0 := if key.length > 64 then sha256 key else key
  let kPadded := k0 ++ List.replicate (64 - k0.length) 0
  let ipad := kPadded.map (fun b => b ^^^ 54)
  let opad := kPadded.map (fun b => b ^^^ 92)
  sha256 (opad ++ sha256 (ipad ++ msg))

/-! ## Byte and string utilities of the embedding -/

/-- UTF-8 encoding of one character, on Nat code points (node encodes a
string HMAC key and a string body as utf8). -/
def utf8EncodeCharNat (c : Char) : List Nat :=
  let n := c.toNat
  if n < 128 then [n]
  else if n < 2048 then [192 + n / 64, 128 + n % 64]
  else if n < 65536 then [224 + n / 4096, 128 + (n / 64) % 64, 128 + n % 64]
  else [240 + n / 262144, 128 + (n / 4096) % 64, 128 + (n / 64) % 64, 128 + n % 64]

/-- UTF-8 bytes of a string. -/
def utf8Bytes (s : String) : List Nat := s.data.flatMap utf8EncodeCharNat

/-- Lowercase hex digit for a value below 16 (hex output of node digest). -/
def hexDigitChar (n : Nat) : Char :=
  if n = 0 then '0' else if n = 1 then '1' else if n = 2 then '2'
  else if n = 3 then '3' else if n = 4 then '4' else if n = 5 then '5'
  else if n = 6 then '6' else if n = 7 then '7' else if n = 8 then '8'
  else if n = 9 then '9' else if n = 10 then 'a' else if n = 11 then 'b'
  else if n = 12 then 'c' else if n = 13 then 'd' else if n = 14 then 'e'
  else 'f'

/-- Numeric value of a hex digit character, accepting both cases, as
Buffer.from with hex encoding does. -/
def hexVal (c : Char) : Option Nat :=
  if c = '0' then some 0 else if c = '1' then some 1 else if c = '2' then some 2
  else if c = '3' then some 3 else if c = '4' then some 4 else if c = '5' then some 5
  else if c = '6' then some 6 else if c = '7' then some 7 else if c = '8' then some 8
  else if c = '9' then some 9 else if c = 'a' then some 10 else if c = 'b' then some 11
  else if c = 'c' then some 12 else if c = 'd' then some 13 else if c = 'e' then some 14
  else if c = 'f' then some 15 else if c = 'A' then some 10 else if c = 'B' then some 11
  else if c = 'C' then some 12 else if c = 'D' then some 13 else if c = 'E' then some 14
  else if c = 'F' then some 15 else none

/-- Hex encoding of a byte sequence into characters. -/
def hexEncodeChars (d : List Nat) : List Char :=
  d.flatMap (fun b => [hexDigitChar (b / 16), hexDigitChar (b % 16)])

/-- Hex encoding as a string, as digest with hex encoding returns. -/
def hexEncode (d : List Nat) : String := String.mk (hexEncodeChars d)

/-- Hex decoding of characters into bytes; Buffer.from with hex encoding
never throws: it truncates at the first invalid or incomplete pair. -/
def hexDecodeChars : List Char → List Nat
  | c1 :: c2 :: rest =>
      (match hexVal c1, hexVal c2 with
       | some hi, some lo => (hi * 16 + lo) :: hexDecodeChars rest
       | _, _ => [])
  | _ => []

/-- Hex decoding of a string into bytes (Buffer.from with hex encoding). -/
def hexDecode (s : String) : List Nat := hexDecodeChars s.data

/-- Embedding of startsWith of JS strings. -/
def strStartsWith (s p : String) : Bool := s.data.take p.data.length == p.data

/-- Embedding of slice of JS strings from a character index to the end. -/
def strDrop (s : String) (n : Nat) : String := String.mk (s.data.drop n)

/-! ## Constant-time comparison (crypto.timingSafeEqual)

The primitive is modelled with an explicit operation count: ctCompare
accumulates the bitwise or of the bytewise xor over the whole of both
buffers, never stopping early, and counts the byte comparisons it
performs.  The count is the cost model: a short-circuiting equality would
perform a number of comparisons that depends on the position of the first
mismatch, this function provably does not. -/

/-- Accumulating comparison: result accumulator and number of byte
comparisons performed. -/
def ctCompare : List Nat → List Nat → Nat → Nat × Nat
  | a :: as, b :: bs, acc =>
      let r := ctCompare as bs (acc ||| (a ^^^ b))
      (r.1, r.2 + 1)
  | _, _, acc => (acc, 0)

/-- Constant-time equality of two equal-length buffers. -/
def timingSafeEqual (a b : List Nat) : Bool := (ctCompare a b 0).1 == 0

/-- Number of byte comparisons performed by the constant-time equality. -/
def timingSafeEqualSteps (a b : List Nat) : Nat := (ctCompare a b 0).2

/-! ## Signature verifier (function verifySignature of index.js) -/

/-- Outcome of the verifier middleware: an immediate status response, or
the call of next that hands the request to the route handler. -/
inductive VerifyResult
  | respond (status : Nat)
  | next
deriving DecidableEq, Repr

/-- Truthiness of an optional JS string: undefined and the empty string
are falsy, every other string is truthy. -/
def jsTruthyStr : Option String → Bool
  | none => false
  | some s => !(s == "")

/-- Middleware verifySignature of index.js.  Arguments: the APP_SECRET
configuration value (undefined when the environment variable is unset),
the captured raw body (undefined when the body parser did not run its
verify hook), and the X-Hub-Signature-256 header value.  Order of checks
follows the source: missing or malformed header gives 401; missing raw
body or missing secret gives 500; then hex decoding of both digests,
length comparison and constant-time comparison give 401 on mismatch and
next on success.  The try block of the source cannot throw here:
Buffer.from with hex encoding never throws and the lengths are compared
before crypto.timingSafeEqual is called, so the catch branch, which also
answers 401, is unreachable. -/
def verifySignature (appSecret : Option String) (rawBody : Option (List Nat))
    (signatureHeader : Option String) : VerifyResult :=
  match signatureHeader with
  | none => .respond 401
  | some h =>
    if h == "" || !(strStartsWith h "sha256=") then .respond 401
    else
      let receivedSignatureHex := strDrop h 7
      match rawBody with
      | none => .respond 500
      | some rawBodyBuffer =>
        if !(jsTruthyStr appSecret) then .respond 500
        else
          let computedDigestHex :=
            hexEncode (hmacSha256 (utf8Bytes (appSecret.getD "")) rawBodyBuffer)
          let bufSig := hexDecode receivedSignatureHex
          let bufDigest := hexDecode computedDigestHex
          if !(bufSig.length == bufDigest.length) || !(timingSafeEqual bufSig bufDigest) then
            .respond 401
          else
            .next

/-- Correctly signed header value for a secret and a body: the sha256=
value followed by the hex HMAC-SHA256 of the body bytes under the utf8
bytes of the secret. -/
def sigHeaderFor (secret : String) (body : List Nat) : String :=
  "sha256=" ++ hexEncode (hmacSha256 (utf8Bytes secret) body)

/-! ## Parsed JSON values and the JS object semantics the handler uses -/

/-- Parsed JSON value (req.body after the body parser ran).  Numbers are
modelled as Int: the handler never computes with payload numbers, it only
tests truthiness and strict equality against string literals. -/
inductive Json
  | null
  | bool (b : Bool)
  | num (n : Int)
  | str (s : String)
  | arr (elems : List Json)
  | obj (fields : List (String × Json))

/-! Stringification used by template literals.  Arrays stringify as their
elements joined with commas, with null elements joined as empty, objects
as the object placeholder. -/

mutual

/-- Stringification of one JSON value by a template literal. -/
def jsToString : Json → String
  | .null => "null"
  | .bool true => "true"
  | .bool false => "false"
  | .num n => toString n
  | .str s => s
  | .arr l => jsToStringList l
  | .obj _ => "[object Object]"

/-- Stringification of array elements, joined with commas. -/
def jsToStringList : List Json → String
  | [] => ""
  | x :: rest =>
      (match x with
       | .null => ""
       | j => jsToString j) ++
      (match rest with
       | [] => ""
       | y :: ys => "," ++ jsToStringList (y :: ys))

end

/-- Lookup of an object property.  JSON.parse keeps the last occurrence of
a duplicated key, so the later binding wins. -/
def lookupField : List (String × Json) → String → Option Json
  | [], _ => none
  | (k, v) :: rest, key =>
      match lookupField rest key with
      | some r => some r
      | none => if k == key then some v else none

/-- TypeError raised by property access on null or undefined, or by
calling forEach on a value that is not an array. -/
inductive JsErr
  | typeError (msg : String)

/-- Property access on a possibly undefined value: undefined and null
raise TypeError, objects look the key up, and every other value yields
undefined. -/
def jsProp : Option Json → String → Except JsErr (Option Json)
  | none, key => .error (.typeError ("Cannot read properties of undefined, reading " ++ key))
  | some .null, key => .error (.typeError ("Cannot read properties of null, reading " ++ key))
  | some (.obj fields), key => .ok (lookupField fields key)
  | some _, _ => .ok none

/-- Truthiness of a possibly undefined JSON value. -/
def jsTruthy : Option Json → Bool
  | none => false
  | some .null => false
  | some (.bool b) => b
  | some (.num n) => !(n == 0)
  | some (.str s) => !(s == "")
  | some (.arr _) => true
  | some (.obj _) => true

/-- Strict equality of a possibly undefined JSON value with a string
literal: true exactly for the equal string. -/
def jsEqStr : Option Json → String → Bool
  | some (.str s), lit => s == lit
  | _, _ => false

/-- Optional chaining access, as in text with question mark dot body:
null and undefined short-circuit to undefined instead of raising. -/
def jsOptChainProp (x : Option Json) (key : String) : Option Json :=
  match x with
  | none => none
  | some .null => none
  | some (.obj fields) => lookupField fields key
  | some _ => none

/-- Logical or with a default, as in the incoming text fallback: the left
value if truthy, else the default. -/
def jsOr (x : Option Json) (d : Json) : Json :=
  if jsTruthy x then x.getD d else d

/-! ## Configuration (module level constants read from the environment) -/

/-- Environment configuration of index.js: each value is the environment
variable as the process sees it, undefined when unset. -/
structure Config where
  verifyToken : Option String
  appSecret : Option String
  whatsappToken : Option String
  phoneNumberId : Option String

/-! ## Verification handshake (the GET /webhook route of index.js) -/

/-- Response of the GET route: status and the body the handler sends
(none when the handler passes no body; sendStatus only carries the
framework status text). -/
structure GetResponse where
  status : Nat
  body : Option String
deriving DecidableEq, Repr

/-- Handler of GET /webhook: hub.mode must be the literal subscribe and
hub.verify_token must be strictly equal to VERIFY_TOKEN, in which case the
challenge is echoed with 200; otherwise 403.  Strict equality on possibly
undefined query values is equality of Option String, so two undefined
sides compare equal, exactly as the triple equals of the source does. -/
def webhookGet (verifyToken : Option String)
    (mode token challenge : Option String) : GetResponse :=
  if mode == some "subscribe" && token == verifyToken then
    ⟨200, challenge⟩
  else
    ⟨403, none⟩

/-! ## Outbound sender (function sendTextMessage of index.js) -/

/-- Outcome of the axios post call, supplied by the environment: the
promise resolves, or rejects with an error message. -/
inductive NetResult
  | success
  | failure (msg : String)

/-- The outbound HTTP request sendTextMessage builds: target URL, the
recipient as passed (the from value of the message, possibly undefined),
the message text, and the bearer credential of the authorization
header. -/
structure OutboundReq where
  url : String
  toId : Option Json
  bodyText : String
  bearer : String

/-- Construction of the outbound request of sendTextMessage. -/
def mkOutboundReq (phoneNumberId bearerToken : String) (toId : Option Json)
    (messageText : String) : OutboundReq :=
  ⟨"https://graph.facebook.com/v19.0/" ++ phoneNumberId ++ "/messages",
   toId, messageText, bearerToken⟩

/-- How a call of sendTextMessage ended: skipped because WHATSAPP_TOKEN or
PHONE_NUMBER_ID is falsy (logged and returned, no network call), sent
successfully, or failed with the rejection caught and logged.  The
codomain has no raising constructor: the function always returns
normally. -/
inductive SendOutcome
  | skippedConfig
  | sent (req : OutboundReq)
  | sendFailed (req : OutboundReq) (errMsg : String)

/-- Result of sendTextMessage together with the number of network calls
attempted. -/
structure SendResult where
  outcome : SendOutcome
  attempts : Nat

/-- Function sendTextMessage of index.js.  Falsy WHATSAPP_TOKEN or
PHONE_NUMBER_ID returns at once without a network call; otherwise axios
is called exactly once and a rejection is caught by the try block and
swallowed. -/
def sendTextMessage (whatsappToken phoneNumberId : Option String)
    (toId : Option Json) (messageText : String)
    (net : OutboundReq → NetResult) : SendResult :=
  if !(jsTruthyStr whatsappToken) || !(jsTruthyStr phoneNumberId) then
    ⟨.skippedConfig, 0⟩
  else
    let req := mkOutboundReq (phoneNumberId.getD "") (whatsappToken.getD "") toId messageText
    match net req with
    | .success => ⟨.sent req, 1⟩
    | .failure m => ⟨.sendFailed req m, 1⟩

/-! ## POST /webhook route handler (the core loop of index.js) -/

/-- One initiated outbound send: the recipient toId (the from value of
the message; the name to of the source is reserved in Lean), the reply
text, and the result of the sendTextMessage call. -/
structure SendRecord where
  toId : Option Json
  replyText : String
  result : SendResult

/-- The automated reply text built by the handler from the incoming
text. -/
def replyFor (incomingText : Json) : String :=
  "Hello! I see you sent: \"" ++ jsToString incomingText ++
    "\". I am your Node.js automated bot. Thanks for texting!"

/-- Inner forEach over value.messages: each message yields one send with
to equal to message.from and the templated reply around text.body of the
message, with the No Text Body fallback.  Property access on a null
element raises, which aborts the whole loop with the sends made so far
kept. -/
def processMessages (cfg : Config) (net : OutboundReq → NetResult) :
    List Json → List SendRecord × Option JsErr
  | [] => ([], none)
  | m :: rest =>
    match jsProp (some m) "from" with
    | .error e => ([], some e)
    | .ok fromF =>
      match jsProp (some m) "text" with
      | .error e => ([], some e)
      | .ok textF =>
        let incomingText := jsOr (jsOptChainProp textF "body") (.str "No Text Body")
        let reply := replyFor incomingText
        let sr := sendTextMessage cfg.whatsappToken cfg.phoneNumberId fromF reply net
        let r := processMessages cfg net rest
        (⟨fromF, reply, sr⟩ :: r.1, r.2)

/-- Middle forEach over entry.changes: reads change.value and
change.field, and only a change whose field is the literal messages and
whose value.messages is truthy enters the message loop.  Reading the
messages property of an undefined or null value raises, as does calling
forEach on a truthy non-array. -/
def processChanges (cfg : Config) (net : OutboundReq → NetResult) :
    List Json → List SendRecord × Option JsErr
  | [] => ([], none)
  | c :: rest =>
    match jsProp (some c) "value" with
    | .error e => ([], some e)
    | .ok value =>
      match jsProp (some c) "field" with
      | .error e => ([], some e)
      | .ok field =>
        if jsEqStr field "messages" then
          match jsProp value "messages" with
          | .error e => ([], some e)
          | .ok messagesF =>
            if jsTruthy messagesF then
              match messagesF with
              | some (.arr msgs) =>
                let r1 := processMessages cfg net msgs
                match r1.2 with
                | some e => (r1.1, some e)
                | none =>
                  let r2 := processChanges cfg net rest
                  (r1.1 ++ r2.1, r2.2)
              | _ => ([], some (.typeError "value.messages.forEach is not a function"))
            else processChanges cfg net rest
        else processChanges cfg net rest

/-- Outer forEach over body.entry: entry.changes must be an array or the
loop raises. -/
def processEntries (cfg : Config) (net : OutboundReq → NetResult) :
    List Json → List SendRecord × Option JsErr
  | [] => ([], none)
  | e :: rest =>
    match jsProp (some e) "changes" with
    | .error err => ([], some err)
    | .ok changesF =>
      match changesF with
      | some (.arr cs) =>
        let r1 := processChanges cfg net cs
        match r1.2 with
        | some err => (r1.1, some err)
        | none =>
          let r2 := processEntries cfg net rest
          (r1.1 ++ r2.1, r2.2)
      | _ => ([], some (.typeError "entry.changes.forEach is not a function"))

/-- Body of the POST route handler after the verifier called next: if
body.object is the literal whatsapp_business_account the nested loops
run, else nothing happens.  The result is the list of initiated sends in
order, and the TypeError that escaped the loops if one did. -/
def processBody (cfg : Config) (net : OutboundReq → NetResult) (body : Json) :
    List SendRecord × Option JsErr :=
  match jsProp (some body) "object" with
  | .error e => ([], some e)
  | .ok objF =>
    if jsEqStr objF "whatsapp_business_account" then
      match jsProp (some body) "entry" with
      | .error e => ([], some e)
      | .ok entryF =>
        match entryF with
        | some (.arr es) => processEntries cfg net es
        | _ => ([], some (.typeError "body.entry.forEach is not a function"))
    else ([], none)

/-- Response of the POST route: the status sent and the outbound sends
that were initiated before the response. -/
structure PostResponse where
  status : Nat
  sends : List SendRecord

/-- Full POST /webhook pipeline: the verifier middleware runs first and a
respond outcome terminates the request with that status and no
processing; on next the handler body runs, answering 200 when it
completes and 500 via the default express error handler when a TypeError
escapes it (the sends initiated before the raise stay initiated). -/
def webhookPost (cfg : Config) (rawBody : Option (List Nat))
    (signatureHeader : Option String) (body : Json)
    (net : OutboundReq → NetResult) : PostResponse :=
  match verifySignature cfg.appSecret rawBody signatureHeader with
  | .respond s => ⟨s, []⟩
  | .next =>
    let r := processBody cfg net body
    match r.2 with
    | none => ⟨200, r.1⟩
    | some _ => ⟨500, r.1⟩

/-- Body values the body parser can actually produce: express json in
strict mode accepts only a top level object or array, every other
payload is rejected with 400 before the route handler runs. -/
def jsParseable : Json → Bool
  | .obj _ => true
  | .arr _ => true
  | _ => false

/-! ## Well-formed envelopes and the pure event extraction

The spec describes the event extractor as a pure function over the
envelope.  The definitions below are that reading of the loops: which
message elements the handler visits, and the shape conditions under which
the loops run to completion without a TypeError. -/

/-- Total property access used for extraction: object lookup, undefined
for every non-object. -/
def msgProp (m : Json) (key : String) : Option Json :=
  match m with
  | .obj fields => lookupField fields key
  | _ => none

/-- The from value of a message element, as the handler reads it. -/
def msgFrom (m : Json) : Option Json := msgProp m "from"

/-- A message element the loop can visit without raising: anything but
null (property access on every other value is defined). -/
def wfMsg (m : Json) : Bool :=
  match m with
  | .null => false
  | _ => true

/-- Changes the middle loop can process without raising: a change that is
null raises on reading value; a change whose field is the literal
messages must have a value on which the messages property is readable
(not undefined, not null), and a truthy value.messages must be an array
of non-null elements, since forEach on a truthy non-array raises. -/
def wfChange (c : Json) : Bool :=
  match c with
  | .null => false
  | .obj fields =>
      if jsEqStr (lookupField fields "field") "messages" then
        match lookupField fields "value" with
        | none => false
        | some .null => false
        | some (.obj vf) =>
            (match lookupField vf "messages" with
             | some (.arr l) => l.all wfMsg
             | some x => !(jsTruthy (some x))
             | none => true)
        | some _ => true
      else true
  | _ => true

/-- Entries the outer loop can process without raising: the changes
property must be an array (of processable changes). -/
def wfEntry (e : Json) : Bool :=
  match e with
  | .obj fields =>
      (match lookupField fields "changes" with
       | some (.arr cs) => cs.all wfChange
       | _ => false)
  | _ => false

/-- Well-formed envelope of the claims: object is the literal
whatsapp_business_account, entry is an array of processable entries. -/
def wfBody (b : Json) : Bool :=
  match b with
  | .obj fields =>
      jsEqStr (lookupField fields "object") "whatsapp_business_account" &&
      (match lookupField fields "entry" with
       | some (.arr es) => es.all wfEntry
       | _ => false)
  | _ => false

/-- Message elements one change contributes: the elements of
value.messages when the field is the literal messages and value.messages
is an array, nothing otherwise. -/
def changeMessages (c : Json) : List Json :=
  match c with
  | .obj fields =>
      if jsEqStr (lookupField fields "field") "messages" then
        match lookupField fields "value" with
        | some (.obj vf) =>
            (match lookupField vf "messages" with
             | some (.arr l) => l
             | _ => [])
        | _ => []
      else []
  | _ => []

/-- The changes array of an entry, empty when absent. -/
def entryChanges (e : Json) : List Json :=
  match e with
  | .obj fields =>
      (match lookupField fields "changes" with
       | some (.arr cs) => cs
       | _ => [])
  | _ => []

/-- The inbound message elements of an envelope, in visiting order: the
pure event extractor of the spec. -/
def extractedMessages (b : Json) : List Json :=
  match b with
  | .obj fields =>
      if jsEqStr (lookupField fields "object") "whatsapp_business_account" then
        (match lookupField fields "entry" with
         | some (.arr es) => es.flatMap (fun e => (entryChanges e).flatMap changeMessages)
         | _ => [])
      else []
  | _ => []

/-- The send record the handler produces for one visited message element:
recipient from message.from, reply templated around text.body of the
message with the No Text Body fallback. -/
def sendRecordFor (cfg : Config) (net : OutboundReq → NetResult) (m : Json) : SendRecord :=
  let fromF := msgProp m "from"
  let incomingText := jsOr (jsOptChainProp (msgProp m "text") "body") (.str "No Text Body")
  let reply := replyFor incomingText
  ⟨fromF, reply, sendTextMessage cfg.whatsappToken cfg.phoneNumberId fromF reply net⟩

/-! ## Theorems

First the sanity checks of the crypto embedding against published test
vectors, then the supporting lemmas, then one theorem per claim of the
specification. -/

set_option maxRecDepth 100000

/-- Sanity vector: SHA-256 of the empty message (FIPS 180-4). -/
theorem sha256_empty_vector : sha256 [] =
    [227, 176, 196, 66, 152, 252, 28, 20,
     154, 251, 244, 200, 153, 111, 185, 36,
     39, 174, 65, 228, 100, 155, 147, 76,
     164, 149, 153, 27, 120, 82, 184, 85] := by decide

/-- Sanity vector: HMAC-SHA256 of RFC 4231, test case 2. -/
theorem hmacSha256_rfc4231_case2 :
    hmacSha256 (utf8Bytes "Jefe") (utf8Bytes "what do ya want for nothing?") =
    [91, 220, 193, 70, 191, 96, 117, 78,
     106, 4, 36, 38, 8, 149, 117, 199,
     90, 0, 63, 8, 157, 39, 57, 131,
     157, 236, 88, 185, 100, 236, 56, 67] := by decide

/-- Compression rounds preserve the state length. -/
theorem compressStep_length (st : List Nat) (kw : Nat × Nat) :
    (compressStep st kw).length = st.length := by
  unfold compressStep; split <;> simp

/-- Folding compression rounds preserves the state length. -/
theorem foldl_compressStep_length (l : List (Nat × Nat)) (st : List Nat) :
    (l.foldl compressStep st).length = st.length := by
  induction l generalizing st with
  | nil => rfl
  | cons kw rest ih => rw [List.foldl_cons, ih, compressStep_length]

/-- A block step keeps the eight-word state size. -/
theorem sha256Block_length (h b : List Nat) (hh : h.length = 8) :
    (sha256Block h b).length = 8 := by
  unfold sha256Block
  simp [List.length_zip, foldl_compressStep_length, hh]

/-- Folding block steps keeps the eight-word state size. -/
theorem foldl_sha256Block_length (cs : List (List Nat)) (h : List Nat) (hh : h.length = 8) :
    (cs.foldl sha256Block h).length = 8 := by
  induction cs generalizing h with
  | nil => exact hh
  | cons c rest ih => rw [List.foldl_cons]; exact ih _ (sha256Block_length _ _ hh)

/-- The digest is 32 bytes long. -/
theorem sha256_length (msg : List Nat) : (sha256 msg).length = 32 := by
  have haux : ∀ l : List Nat,
      (l.flatMap (fun w => [w >>> 24, (w >>> 16) &&& 255, (w >>> 8) &&& 255, w &&& 255])).length
        = 4 * l.length := by
    intro l
    induction l with
    | nil => rfl
    | cons x rest ih => simp [List.flatMap_cons, ih]; omega
  unfold sha256
  rw [haux, foldl_sha256Block_length _ _ (by decide)]

/-- Every word of a block step output is below the 32-bit modulus. -/
theorem sha256Block_lt (h b : List Nat) : ∀ x ∈ sha256Block h b, x < w32 := by
  unfold sha256Block
  intro x hx
  simp only [List.mem_map] at hx
  obtain ⟨p, _, rfl⟩ := hx
  exact Nat.mod_lt _ (by decide)

/-- Every word of the folded state is below the 32-bit modulus. -/
theorem foldl_sha256Block_lt (cs : List (List Nat)) (h : List Nat)
    (hh : ∀ x ∈ h, x < w32) : ∀ x ∈ cs.foldl sha256Block h, x < w32 := by
  induction cs generalizing h with
  | nil => exact hh
  | cons c rest ih => rw [List.foldl_cons]; exact ih _ (sha256Block_lt _ _)

/-- Every byte of the digest is below 256. -/
theorem sha256_lt (msg : List Nat) : ∀ x ∈ sha256 msg, x < 256 := by
  unfold sha256
  intro x hx
  simp only [List.mem_flatMap] at hx
  obtain ⟨w, hw, hx⟩ := hx
  have hwlt : w < w32 := foldl_sha256Block_lt _ _ (by decide) w hw
  have hsh : w >>> 24 = w / 2 ^ 24 := Nat.shiftRight_eq_div_pow w 24
  have hland : ∀ y : Nat, y &&& 255 < 256 := fun y => Nat.lt_succ_of_le Nat.and_le_right
  unfold w32 at hwlt
  simp only [List.mem_cons, List.not_mem_nil, or_false] at hx
  rcases hx with rfl | rfl | rfl | rfl
  · omega
  · exact hland _
  · exact hland _
  · exact hland _

/-- Every byte of an HMAC digest is below 256. -/
theorem hmacSha256_lt (k m : List Nat) : ∀ x ∈ hmacSha256 k m, x < 256 := by
  unfold hmacSha256; exact sha256_lt _

/-- An HMAC digest is 32 bytes long. -/
theorem hmacSha256_length (k m : List Nat) : (hmacSha256 k m).length = 32 := by
  unfold hmacSha256; exact sha256_length _

/-- Decoding inverts encoding on each hex digit. -/
theorem hexVal_hexDigitChar : ∀ n < 16, hexVal (hexDigitChar n) = some n := by decide

/-- Hex decoding inverts hex encoding on byte sequences. -/
theorem hexDecodeChars_hexEncodeChars (d : List Nat) (hd : ∀ x ∈ d, x < 256) :
    hexDecodeChars (hexEncodeChars d) = d := by
  induction d with
  | nil => rfl
  | cons b rest ih =>
    have hb : b < 256 := hd b (List.mem_cons_self b rest)
    have h1 : b / 16 < 16 := by omega
    have h2 : b % 16 < 16 := by omega
    show hexDecodeChars (hexDigitChar (b / 16) :: hexDigitChar (b % 16) :: hexEncodeChars rest)
        = b :: rest
    rw [hexDecodeChars, hexVal_hexDigitChar _ h1, hexVal_hexDigitChar _ h2]
    show (b / 16 * 16 + b % 16) :: hexDecodeChars (hexEncodeChars rest) = b :: rest
    have hbr : b / 16 * 16 + b % 16 = b := by omega
    rw [hbr, ih (fun x hx => hd x (List.mem_cons_of_mem b hx))]

/-- Hex decoding of the hex-encoded digest string recovers the digest. -/
theorem hexDecode_hexEncode (d : List Nat) (hd : ∀ x ∈ d, x < 256) :
    hexDecode (hexEncode d) = d :=
  hexDecodeChars_hexEncodeChars d hd

/-- A disjunction of bits is zero only when both sides are. -/
theorem lor_eq_zero {a b : Nat} (h : a ||| b = 0) : a = 0 ∧ b = 0 := by
  refine ⟨Nat.eq_of_testBit_eq fun i => ?_, Nat.eq_of_testBit_eq fun i => ?_⟩ <;>
  · have h2 := congrArg (fun n => Nat.testBit n i) h
    simp only [Nat.testBit_or, Nat.zero_testBit, Bool.or_eq_false_iff] at h2
    simp [h2.1, h2.2, Nat.zero_testBit]

/-- The accumulating comparison on identical buffers keeps the
accumulator and walks the whole buffer. -/
theorem ctCompare_self (a : List Nat) (acc : Nat) : ctCompare a a acc = (acc, a.length) := by
  induction a generalizing acc with
  | nil => rfl
  | cons x rest ih => simp [ctCompare, ih, Nat.xor_self]

/-- Constant-time equality accepts identical buffers. -/
theorem timingSafeEqual_refl (a : List Nat) : timingSafeEqual a a = true := by
  simp [timingSafeEqual, ctCompare_self]

/-- A zero comparison accumulator means a clean start and equal buffers. -/
theorem ctCompare_fst_eq_zero (a : List Nat) : ∀ (b : List Nat) (acc : Nat),
    a.length = b.length → (ctCompare a b acc).1 = 0 → acc = 0 ∧ a = b := by
  induction a with
  | nil =>
    intro b acc hlen h
    cases b with
    | nil => exact ⟨h, rfl⟩
    | cons y ys => simp at hlen
  | cons x rest ih =>
    intro b acc hlen h
    cases b with
    | nil => simp at hlen
    | cons y ys =>
      simp only [ctCompare] at h
      obtain ⟨hacc, heq⟩ := ih ys (acc ||| (x ^^^ y)) (by simpa using hlen) h
      obtain ⟨ha, hx⟩ := lor_eq_zero hacc
      exact ⟨ha, by rw [Nat.xor_eq_zero.mp hx, heq]⟩

/-- Constant-time equality is equality on equal-length buffers. -/
theorem timingSafeEqual_eq_true (a b : List Nat) (hlen : a.length = b.length)
    (h : timingSafeEqual a b = true) : a = b := by
  simp only [timingSafeEqual, beq_iff_eq] at h
  exact (ctCompare_fst_eq_zero a b 0 hlen h).2

/-- The comparison count is the shorter length, whatever the contents. -/
theorem ctCompare_snd (a : List Nat) : ∀ (b : List Nat) (acc : Nat),
    (ctCompare a b acc).2 = min a.length b.length := by
  induction a with
  | nil => intro b acc; cases b <;> simp [ctCompare]
  | cons x rest ih =>
    intro b acc
    cases b with
    | nil => simp [ctCompare]
    | cons y ys => simp [ctCompare, ih]; omega

/-- Prepending the expected algorithm marker always satisfies the
startsWith check. -/
theorem strStartsWith_append (p q : String) : strStartsWith (p ++ q) p = true := by
  simp [strStartsWith, String.data_append, List.take_left]

/-- Slicing seven characters off a string with the sha256= marker
recovers the hex part. -/
theorem strDrop_sha256_marker (q : String) : strDrop ("sha256=" ++ q) 7 = q := by
  obtain ⟨qd⟩ := q
  simp only [strDrop, String.data_append]
  rw [show (7 : Nat) = "sha256=".data.length from rfl, List.drop_left]

/-- A string extending the sha256= marker is not empty. -/
theorem sha256_marker_append_ne_empty (q : String) : (("sha256=" ++ q) == "") = false := by
  have : ("sha256=" ++ q).data = "sha256=".data ++ q.data := String.data_append _ _
  simp only [beq_eq_false_iff_ne, ne_eq, String.ext_iff, this]
  intro hcontra
  have := congrArg List.length hcontra
  simp [String.data_append] at this

/-- A header that passes the marker check is not the empty string. -/
theorem ne_empty_of_marker (h : String) (hst : strStartsWith h "sha256=" = true) :
    (h == "") = false := by
  rcases heq : (h == "") with _ | _
  · rfl
  · exfalso
    have h0 : h = "" := by simpa using heq
    subst h0
    simp [strStartsWith] at hst

/-- A missing signature header answers 401 before anything else runs. -/
theorem vs_missing_header (sec : Option String) (raw : Option (List Nat)) :
    verifySignature sec raw none = .respond 401 := rfl

/-- A header without the sha256= marker answers 401, whatever the secret
and body are. -/
theorem vs_bad_marker (sec : Option String) (raw : Option (List Nat)) (h : String)
    (hst : strStartsWith h "sha256=" = false) :
    verifySignature sec raw (some h) = .respond 401 := by
  simp [verifySignature, hst]

/-- With a marked header and a falsy secret the verifier answers 500. -/
theorem vs_missing_secret (sec : Option String) (b : List Nat) (h : String)
    (hst : strStartsWith h "sha256=" = true) (hsec : jsTruthyStr sec = false) :
    verifySignature sec (some b) (some h) = .respond 500 := by
  have hne := ne_empty_of_marker h hst
  simp [verifySignature, hst, hne, hsec]

/-- A received digest that does not decode to 32 bytes answers 401: the
computed digest always has 32 bytes, so the length check fails. -/
theorem vs_wrong_length (sec : Option String) (b : List Nat) (h : String)
    (hst : strStartsWith h "sha256=" = true) (hsec : jsTruthyStr sec = true)
    (hlen : (hexDecode (strDrop h 7)).length ≠ 32) :
    verifySignature sec (some b) (some h) = .respond 401 := by
  have hne := ne_empty_of_marker h hst
  have hd32 : (hexDecode (hexEncode (hmacSha256 (utf8Bytes (sec.getD "")) b))).length = 32 := by
    rw [hexDecode_hexEncode _ (hmacSha256_lt _ _), hmacSha256_length]
  have hb : (((hexDecode (strDrop h 7)).length == (32 : Nat)) : Bool) = false := by
    simpa using hlen
  simp [verifySignature, hst, hne, hsec, hd32, hb]

/-- A received digest different from the computed digest answers 401:
either the lengths differ, or the constant-time comparison rejects. -/
theorem vs_wrong_digest (sec : Option String) (b : List Nat) (h : String)
    (hst : strStartsWith h "sha256=" = true) (hsec : jsTruthyStr sec = true)
    (hne2 : hexDecode (strDrop h 7) ≠ hmacSha256 (utf8Bytes (sec.getD "")) b) :
    verifySignature sec (some b) (some h) = .respond 401 := by
  by_cases hl : (hexDecode (strDrop h 7)).length = 32
  · have hne := ne_empty_of_marker h hst
    have hd : hexDecode (hexEncode (hmacSha256 (utf8Bytes (sec.getD "")) b))
        = hmacSha256 (utf8Bytes (sec.getD "")) b :=
      hexDecode_hexEncode _ (hmacSha256_lt _ _)
    have hts : timingSafeEqual (hexDecode (strDrop h 7))
        (hmacSha256 (utf8Bytes (sec.getD "")) b) = false := by
      rcases hts0 : timingSafeEqual (hexDecode (strDrop h 7))
          (hmacSha256 (utf8Bytes (sec.getD "")) b) with _ | _
      · rfl
      · exact absurd (timingSafeEqual_eq_true _ _ (by rw [hl, hmacSha256_length]) hts0) hne2
    simp [verifySignature, hst, hne, hsec, hd, hts]
  · exact vs_wrong_length sec b h hst hsec hl

/-- A respond outcome of the verifier is the response of the whole POST,
with no sends. -/
theorem webhookPost_of_respond (cfg : Config) (raw : Option (List Nat))
    (hdr : Option String) (body : Json) (net : OutboundReq → NetResult) (s : Nat)
    (h : verifySignature cfg.appSecret raw hdr = .respond s) :
    webhookPost cfg raw hdr body net = ⟨s, []⟩ := by
  simp [webhookPost, h]

/-- A correctly signed request with a present, nonempty secret passes the
verifier. -/
theorem vs_correct_signature (s : String) (b : List Nat) (hs : s ≠ "") :
    verifySignature (some s) (some b) (some (sigHeaderFor s b)) = .next := by
  have hlt : ∀ x ∈ hmacSha256 (utf8Bytes s) b, x < 256 := hmacSha256_lt _ _
  have h1 := sha256_marker_append_ne_empty (hexEncode (hmacSha256 (utf8Bytes s) b))
  have h2 := strStartsWith_append "sha256=" (hexEncode (hmacSha256 (utf8Bytes s) b))
  have h3 := strDrop_sha256_marker (hexEncode (hmacSha256 (utf8Bytes s) b))
  have h4 := hexDecode_hexEncode _ hlt
  have h5 : jsTruthyStr (some s) = true := by simp [jsTruthyStr, hs]
  simp [verifySignature, sigHeaderFor, h1, h2, h3, h4, h5, timingSafeEqual_refl]

/-- Property access on a visitable (non-null) message element is total
and agrees with the pure accessor. -/
theorem jsProp_not_null (m : Json) (hm : wfMsg m = true) (k : String) :
    jsProp (some m) k = .ok (msgProp m k) := by
  cases m <;> simp_all [wfMsg, jsProp, msgProp]

/-- The message loop on visitable elements completes without raising and
produces exactly one send per element. -/
theorem processMessages_wf (cfg : Config) (net : OutboundReq → NetResult)
    (l : List Json) (hl : l.all wfMsg = true) :
    processMessages cfg net l = (l.map (sendRecordFor cfg net), none) := by
  induction l with
  | nil => rfl
  | cons m rest ih =>
    rw [List.all_cons, Bool.and_eq_true] at hl
    simp only [processMessages, jsProp_not_null m hl.1, ih hl.2, List.map_cons]
    rfl

/-- The change loop on processable changes completes without raising and
produces one send per contributed message element, in order. -/
theorem processChanges_wf (cfg : Config) (net : OutboundReq → NetResult)
    (cs : List Json) (hcs : cs.all wfChange = true) :
    processChanges cfg net cs = ((cs.flatMap changeMessages).map (sendRecordFor cfg net), none) := by
  induction cs with
  | nil => rfl
  | cons c rest ih =>
    rw [List.all_cons, Bool.and_eq_true] at hcs
    obtain ⟨hc, hrest⟩ := hcs
    have ihr := ih hrest
    rw [List.flatMap_cons, List.map_append]
    cases c with
    | null => simp [wfChange] at hc
    | bool b => simp [processChanges, jsProp, jsEqStr, changeMessages, ihr]
    | num n => simp [processChanges, jsProp, jsEqStr, changeMessages, ihr]
    | str s => simp [processChanges, jsProp, jsEqStr, changeMessages, ihr]
    | arr l => simp [processChanges, jsProp, jsEqStr, changeMessages, ihr]
    | obj fields =>
      by_cases hf : jsEqStr (lookupField fields "field") "messages" = true
      · rcases hv : lookupField fields "value" with _ | v
        · simp [wfChange, hf, hv] at hc
        · cases v with
          | null => simp [wfChange, hf, hv] at hc
          | obj vf =>
            rcases hm : lookupField vf "messages" with _ | mv
            · simp [processChanges, jsProp, hf, hv, hm, jsTruthy, changeMessages, ihr]
            · cases mv with
              | arr msgs =>
                have hmsgs : msgs.all wfMsg = true := by
                  simpa [wfChange, hf, hv, hm] using hc
                simp [processChanges, jsProp, hf, hv, hm, jsTruthy, changeMessages,
                  processMessages_wf cfg net msgs hmsgs, ihr]
              | null =>
                simp [processChanges, jsProp, hf, hv, hm, jsTruthy, changeMessages, ihr]
              | bool bv =>
                have hbv : bv = false := by
                  simpa [wfChange, hf, hv, hm, jsTruthy] using hc
                subst hbv
                simp [processChanges, jsProp, hf, hv, hm, jsTruthy, changeMessages, ihr]
              | num nv =>
                have hnv : nv = 0 := by
                  simpa [wfChange, hf, hv, hm, jsTruthy] using hc
                subst hnv
                simp [processChanges, jsProp, hf, hv, hm, jsTruthy, changeMessages, ihr]
              | str sv =>
                have hsv : sv = "" := by
                  simpa [wfChange, hf, hv, hm, jsTruthy] using hc
                subst hsv
                simp [processChanges, jsProp, hf, hv, hm, jsTruthy, changeMessages, ihr]
              | obj ov =>
                simp [wfChange, hf, hv, hm, jsTruthy] at hc
          | bool bv => simp [processChanges, jsProp, hf, hv, jsTruthy, changeMessages, ihr]
          | num nv => simp [processChanges, jsProp, hf, hv, jsTruthy, changeMessages, ihr]
          | str sv => simp [processChanges, jsProp, hf, hv, jsTruthy, changeMessages, ihr]
          | arr av => simp [processChanges, jsProp, hf, hv, jsTruthy, changeMessages, ihr]
      · have hf2 : jsEqStr (lookupField fields "field") "messages" = false :=
          Bool.not_eq_true _ ▸ Bool.eq_false_iff.mpr hf
        simp [processChanges, jsProp, hf2, changeMessages, ihr]

/-- The entry loop on processable entries completes without raising and
produces one send per message element, in order. -/
theorem processEntries_wf (cfg : Config) (net : OutboundReq → NetResult)
    (es : List Json) (hes : es.all wfEntry = true) :
    processEntries cfg net es =
      ((es.flatMap (fun e => (entryChanges e).flatMap changeMessages)).map
        (sendRecordFor cfg net), none) := by
  induction es with
  | nil => rfl
  | cons e rest ih =>
    rw [List.all_cons, Bool.and_eq_true] at hes
    obtain ⟨he, hrest⟩ := hes
    have ihr := ih hrest
    rw [List.flatMap_cons, List.map_append]
    cases e with
    | null => simp [wfEntry] at he
    | bool b => simp [wfEntry] at he
    | num n => simp [wfEntry] at he
    | str s => simp [wfEntry] at he
    | arr l => simp [wfEntry] at he
    | obj fields =>
      rcases hch : lookupField fields "changes" with _ | cv
      · simp [wfEntry, hch] at he
      · cases cv with
        | arr cs =>
          have hcs : cs.all wfChange = true := by simpa [wfEntry, hch] using he
          simp [processEntries, jsProp, hch, entryChanges,
            processChanges_wf cfg net cs hcs, ihr]
        | null => simp [wfEntry, hch] at he
        | bool b => simp [wfEntry, hch] at he
        | num n => simp [wfEntry, hch] at he
        | str s => simp [wfEntry, hch] at he
        | obj o => simp [wfEntry, hch] at he

/-- The handler body on a well-formed envelope completes without raising
and produces exactly the sends of the extracted messages. -/
theorem processBody_wf (cfg : Config) (net : OutboundReq → NetResult)
    (b : Json) (hb : wfBody b = true) :
    processBody cfg net b = ((extractedMessages b).map (sendRecordFor cfg net), none) := by
  cases b with
  | null => simp [wfBody] at hb
  | bool b2 => simp [wfBody] at hb
  | num n => simp [wfBody] at hb
  | str s => simp [wfBody] at hb
  | arr l => simp [wfBody] at hb
  | obj fields =>
    simp only [wfBody, Bool.and_eq_true] at hb
    obtain ⟨hob, hent⟩ := hb
    rcases hv : lookupField fields "entry" with _ | ev
    · rw [hv] at hent; simp at hent
    · cases ev with
      | arr es =>
        have hes : es.all wfEntry = true := by rw [hv] at hent; simpa using hent
        simp [processBody, jsProp, hob, hv, extractedMessages,
          processEntries_wf cfg net es hes]
      | null => rw [hv] at hent; simp at hent
      | bool b2 => rw [hv] at hent; simp at hent
      | num n => rw [hv] at hent; simp at hent
      | str s => rw [hv] at hent; simp at hent
      | obj o => rw [hv] at hent; simp at hent

/-- The error component of the message loop does not depend on the
network outcomes. -/
theorem processMessages_err_net (cfg : Config) (net net2 : OutboundReq → NetResult)
    (l : List Json) :
    (processMessages cfg net l).2 = (processMessages cfg net2 l).2 := by
  induction l with
  | nil => rfl
  | cons m rest ih =>
    simp only [processMessages]
    cases h1 : jsProp (some m) "from" with
    | error e => rfl
    | ok fF =>
      cases h2 : jsProp (some m) "text" with
      | error e => rfl
      | ok tF => simpa using ih

/-- The error component of the change loop does not depend on the network
outcomes. -/
theorem processChanges_err_net (cfg : Config) (net net2 : OutboundReq → NetResult)
    (cs : List Json) :
    (processChanges cfg net cs).2 = (processChanges cfg net2 cs).2 := by
  induction cs with
  | nil => rfl
  | cons c rest ih =>
    simp only [processChanges]
    cases h1 : jsProp (some c) "value" with
    | error e => rfl
    | ok value =>
      cases h2 : jsProp (some c) "field" with
      | error e => rfl
      | ok field =>
        by_cases hf : jsEqStr field "messages" = true
        · simp only [hf, if_true]
          cases h3 : jsProp value "messages" with
          | error e => rfl
          | ok mF =>
            by_cases ht : jsTruthy mF = true
            · simp only [ht, if_true]
              cases mF with
              | none => simp [jsTruthy] at ht
              | some mv =>
                cases mv with
                | arr msgs =>
                  have hpm := processMessages_err_net cfg net net2 msgs
                  cases hr : (processMessages cfg net msgs).2 with
                  | some e => rw [hr] at hpm; simp [hr, ← hpm]
                  | none => rw [hr] at hpm; simp [hr, ← hpm, ih]
                | null => rfl
                | bool b2 => rfl
                | num n => rfl
                | str s => rfl
                | obj o => rfl
            · have ht2 : jsTruthy mF = false := by simpa using ht
              simp only [ht2, Bool.false_eq_true, if_false]
              exact ih
        · have hf2 : jsEqStr field "messages" = false := by simpa using hf
          simp only [hf2, Bool.false_eq_true, if_false]
          exact ih

/-- The error component of the entry loop does not depend on the network
outcomes. -/
theorem processEntries_err_net (cfg : Config) (net net2 : OutboundReq → NetResult)
    (es : List Json) :
    (processEntries cfg net es).2 = (processEntries cfg net2 es).2 := by
  induction es with
  | nil => rfl
  | cons e rest ih =>
    simp only [processEntries]
    cases h1 : jsProp (some e) "changes" with
    | error err => rfl
    | ok changesF =>
      cases changesF with
      | none => rfl
      | some cv =>
        cases cv with
        | arr cs =>
          have hpc := processChanges_err_net cfg net net2 cs
          cases hr : (processChanges cfg net cs).2 with
          | some err => rw [hr] at hpc; simp [hr, ← hpc]
          | none => rw [hr] at hpc; simp [hr, ← hpc, ih]
        | null => rfl
        | bool b2 => rfl
        | num n => rfl
        | str s => rfl
        | obj o => rfl

/-- The error component of the handler body does not depend on the
network outcomes. -/
theorem processBody_err_net (cfg : Config) (net net2 : OutboundReq → NetResult)
    (body : Json) :
    (processBody cfg net body).2 = (processBody cfg net2 body).2 := by
  simp only [processBody]
  cases h1 : jsProp (some body) "object" with
  | error e => rfl
  | ok objF =>
    by_cases ho : jsEqStr objF "whatsapp_business_account" = true
    · simp only [ho, if_true]
      cases h2 : jsProp (some body) "entry" with
      | error e => rfl
      | ok entryF =>
        cases entryF with
        | none => rfl
        | some ev =>
          cases ev with
          | arr es => exact processEntries_err_net cfg net net2 es
          | null => rfl
          | bool b2 => rfl
          | num n => rfl
          | str s => rfl
          | obj o => rfl
    · have ho2 : jsEqStr objF "whatsapp_business_account" = false := by simpa using ho
      simp only [ho2, Bool.false_eq_true, if_false]

/-- The response status of the POST route does not depend on the network
outcomes of the outbound sends. -/
theorem webhookPost_status_net (cfg : Config) (raw : Option (List Nat))
    (hdr : Option String) (body : Json) (net net2 : OutboundReq → NetResult) :
    (webhookPost cfg raw hdr body net).status = (webhookPost cfg raw hdr body net2).status := by
  simp only [webhookPost]
  cases verifySignature cfg.appSecret raw hdr with
  | respond s => rfl
  | next =>
    have hpb := processBody_err_net cfg net net2 body
    cases hr : (processBody cfg net body).2 with
    | none => rw [hr] at hpb; simp [hr, ← hpb]
    | some e => rw [hr] at hpb; simp [hr, ← hpb]

/-- Claim C2, counterexample: with the empty-string secret the verifier
answers 500 instead of accepting the correctly signed header, because the
falsy check on APP_SECRET treats the empty string like an unset variable.
So verify of B against hmac hex of B under S is not valid for every
secret S. -/
theorem c2_counterexample :
    verifySignature (some "") (some []) (some (sigHeaderFor "" []))
      = VerifyResult.respond 500
    ∧ verifySignature (some "") (some []) (some (sigHeaderFor "" []))
      ≠ VerifyResult.next := by
  constructor
  · rfl
  · decide

/-- Claim C2 (amended): for every body B and every nonempty secret S,
verifying B against the header sha256= followed by the hex HMAC-SHA256 of
B under S succeeds, that is, the verifier calls next. -/
theorem c2_verify_correct_signature (s : String) (b : List Nat) (hs : s ≠ "") :
    verifySignature (some s) (some b) (some (sigHeaderFor s b)) = .next :=
  vs_correct_signature s b hs

/-- Claim C2 witness at a concrete secret and body. -/
theorem c2_witness :
    verifySignature (some "k3y") (some [104, 105]) (some (sigHeaderFor "k3y" [104, 105]))
      = VerifyResult.next :=
  c2_verify_correct_signature "k3y" [104, 105] (by decide)

/-- Claim C3: every signature failure of a POST (missing header, header
without the sha256= marker, received digest that does not decode to the
32 digest bytes, digest mismatch) answers 401 with no sends initiated,
while a falsy shared secret answers the distinct status 500, also with no
sends. -/
theorem c3_signature_failure_responses (cfg : Config) (b : List Nat) (body : Json)
    (net : OutboundReq → NetResult) :
    (webhookPost cfg (some b) none body net = ⟨401, []⟩)
    ∧ (∀ h, strStartsWith h "sha256=" = false →
        webhookPost cfg (some b) (some h) body net = ⟨401, []⟩)
    ∧ (∀ h, strStartsWith h "sha256=" = true → jsTruthyStr cfg.appSecret = true →
        (hexDecode (strDrop h 7)).length ≠ 32 →
        webhookPost cfg (some b) (some h) body net = ⟨401, []⟩)
    ∧ (∀ h, strStartsWith h "sha256=" = true → jsTruthyStr cfg.appSecret = true →
        hexDecode (strDrop h 7) ≠ hmacSha256 (utf8Bytes (cfg.appSecret.getD "")) b →
        webhookPost cfg (some b) (some h) body net = ⟨401, []⟩)
    ∧ (∀ h, strStartsWith h "sha256=" = true → jsTruthyStr cfg.appSecret = false →
        webhookPost cfg (some b) (some h) body net = ⟨500, []⟩) := by
  refine ⟨?_, ?_, ?_, ?_, ?_⟩
  · exact webhookPost_of_respond _ _ _ _ _ _ (vs_missing_header _ _)
  · intro h hst
    exact webhookPost_of_respond _ _ _ _ _ _ (vs_bad_marker _ _ _ hst)
  · intro h hst hsec hlen
    exact webhookPost_of_respond _ _ _ _ _ _ (vs_wrong_length _ _ _ hst hsec hlen)
  · intro h hst hsec hneq
    exact webhookPost_of_respond _ _ _ _ _ _ (vs_wrong_digest _ _ _ hst hsec hneq)
  · intro h hst hsec
    exact webhookPost_of_respond _ _ _ _ _ _ (vs_missing_secret _ _ _ hst hsec)

/-- Claim C3 witness: a missing header, an unmarked header, and a marked
header with a missing secret, on concrete requests. -/
theorem c3_witness :
    webhookPost ⟨none, none, none, none⟩ (some []) none Json.null
      (fun _ => NetResult.success) = ⟨401, []⟩
    ∧ webhookPost ⟨none, none, none, none⟩ (some []) (some "nope") Json.null
      (fun _ => NetResult.success) = ⟨401, []⟩
    ∧ webhookPost ⟨none, none, none, none⟩ (some []) (some "sha256=abc") Json.null
      (fun _ => NetResult.success) = ⟨500, []⟩ :=
  ⟨(c3_signature_failure_responses _ _ _ _).1,
   (c3_signature_failure_responses _ _ _ _).2.1 "nope" (by decide),
   (c3_signature_failure_responses _ _ _ _).2.2.2.2 "sha256=abc" (by decide) (by decide)⟩

/-- Claim C10: the header checks of the verifier precede the secret
check, so an absent or unmarked header answers 401 whatever the secret
is, and the 500 answer is reachable only with a header that carries the
sha256= marker. -/
theorem c10_header_check_precedes_secret_check (sec : Option String)
    (raw : Option (List Nat)) (hdr : Option String) :
    (verifySignature sec raw none = .respond 401)
    ∧ (∀ h, strStartsWith h "sha256=" = false →
        verifySignature sec raw (some h) = .respond 401)
    ∧ (verifySignature sec raw hdr = .respond 500 →
        ∃ h, hdr = some h ∧ strStartsWith h "sha256=" = true)
    ∧ (∀ (cfg : Config) (body : Json) (net : OutboundReq → NetResult),
        cfg.appSecret = none →
        webhookPost cfg raw none body net = ⟨401, []⟩) := by
  refine ⟨vs_missing_header _ _, fun h hst => vs_bad_marker _ _ _ hst, ?_, ?_⟩
  · intro h500
    cases hdr with
    | none => rw [vs_missing_header] at h500; simp at h500
    | some h =>
      by_cases hst : strStartsWith h "sha256=" = true
      · exact ⟨h, rfl, hst⟩
      · have hst2 : strStartsWith h "sha256=" = false := by simpa using hst
        rw [vs_bad_marker _ _ _ hst2] at h500
        simp at h500
  · intro cfg body net _
    exact webhookPost_of_respond _ _ _ _ _ _ (vs_missing_header _ _)

/-- Claim C10 witness: with no secret configured, a missing header still
answers 401, and a concrete 500 answer carries a marked header. -/
theorem c10_witness :
    verifySignature none none none = VerifyResult.respond 401
    ∧ (∃ h, (some "sha256=xx" : Option String) = some h ∧ strStartsWith h "sha256=" = true) :=
  ⟨(c10_header_check_precedes_secret_check none none none).1,
   (c10_header_check_precedes_secret_check none none (some "sha256=xx")).2.2.1 (by decide)⟩

/-- Claim C4: the comparison the verifier uses walks every byte of the
two digests: the number of byte comparisons equals the digest length for
every pair of equal-length buffers, so it is independent of the position
of the first differing byte, and no short-circuiting equality is
involved. -/
theorem c4_constant_time_comparison (a b c d : List Nat)
    (hab : a.length = b.length) (hcd : c.length = d.length) (hac : a.length = c.length) :
    timingSafeEqualSteps a b = timingSafeEqualSteps c d
    ∧ timingSafeEqualSteps a b = a.length := by
  constructor
  · simp only [timingSafeEqualSteps, ctCompare_snd]
    omega
  · simp only [timingSafeEqualSteps, ctCompare_snd]
    omega

/-- Claim C4 witness: buffers differing in the first byte and buffers
differing in the last byte take the same number of comparisons. -/
theorem c4_witness :
    timingSafeEqualSteps [0, 0, 0] [1, 0, 0] = timingSafeEqualSteps [0, 0, 0] [0, 0, 1]
    ∧ timingSafeEqualSteps [0, 0, 0] [1, 0, 0] = 3 := by
  have h := c4_constant_time_comparison [0, 0, 0] [1, 0, 0] [0, 0, 0] [0, 0, 1]
    (by decide) (by decide) (by decide)
  exact ⟨h.1, by rw [h.2]; rfl⟩

/-- Claim C7: the handshake answers 200 with the unmodified challenge
exactly when hub.mode is the literal subscribe and hub.verify_token is
strictly equal to the configured verify token, and 403 with no handler
body otherwise. -/
theorem c7_handshake (vt mode token challenge : Option String) :
    ((mode = some "subscribe" ∧ token = vt) →
      webhookGet vt mode token challenge = ⟨200, challenge⟩)
    ∧ (¬(mode = some "subscribe" ∧ token = vt) →
      webhookGet vt mode token challenge = ⟨403, none⟩) := by
  refine ⟨?_, ?_⟩
  · rintro ⟨rfl, rfl⟩
    simp [webhookGet]
  · intro hn
    have hb : (mode == some "subscribe" && token == vt) = false := by
      by_cases h1 : mode = some "subscribe" <;> by_cases h2 : token = vt <;>
        simp_all
    simp [webhookGet, hb]

/-- Claim C7 witness: a matching and a mismatching handshake. -/
theorem c7_witness :
    webhookGet (some "tok") (some "subscribe") (some "tok") (some "abc123")
      = ⟨200, some "abc123"⟩
    ∧ webhookGet (some "tok") (some "subscribe") (some "wrong") (some "abc123")
      = ⟨403, none⟩ :=
  ⟨(c7_handshake (some "tok") (some "subscribe") (some "tok") (some "abc123")).1 ⟨rfl, rfl⟩,
   (c7_handshake (some "tok") (some "subscribe") (some "wrong") (some "abc123")).2
     (by simp)⟩

/-- Claim C9: with no verify token configured, a subscribe request that
presents no token satisfies the strict equality of two undefined values
and the handshake succeeds, echoing the challenge with 200. -/
theorem c9_unset_token_handshake (challenge : Option String) :
    webhookGet none (some "subscribe") none challenge = ⟨200, challenge⟩ := rfl

/-- Claim C8: the outbound sender returns without a network call when the
bearer credential or the phone number id is absent; an attempted call
that fails is caught and swallowed in a single attempt, never retried;
and the response status of the webhook never depends on the network
outcomes of the sends. -/
theorem c8_outbound_sender (tok pid : Option String) (toId : Option Json) (text : String)
    (net : OutboundReq → NetResult) :
    ((tok = none ∨ pid = none) → sendTextMessage tok pid toId text net = ⟨.skippedConfig, 0⟩)
    ∧ (∀ m, jsTruthyStr tok = true → jsTruthyStr pid = true →
        net (mkOutboundReq (pid.getD "") (tok.getD "") toId text) = .failure m →
        sendTextMessage tok pid toId text net =
          ⟨.sendFailed (mkOutboundReq (pid.getD "") (tok.getD "") toId text) m, 1⟩)
    ∧ ((sendTextMessage tok pid toId text net).attempts ≤ 1)
    ∧ (∀ (cfg : Config) (raw : Option (List Nat)) (hdr : Option String) (body : Json)
        (net2 : OutboundReq → NetResult),
        (webhookPost cfg raw hdr body net).status = (webhookPost cfg raw hdr body net2).status) := by
  refine ⟨?_, ?_, ?_, ?_⟩
  · rintro (rfl | rfl) <;> simp [sendTextMessage, jsTruthyStr]
  · intro m htok hpid hnet
    simp [sendTextMessage, htok, hpid, hnet]
  · simp only [sendTextMessage]
    by_cases h : (!jsTruthyStr tok || !jsTruthyStr pid) = true
    · simp [h]
    · have h2 : (!jsTruthyStr tok || !jsTruthyStr pid) = false := by simpa using h
      simp only [h2, Bool.false_eq_true, if_false]
      cases net (mkOutboundReq (pid.getD "") (tok.getD "") toId text) <;> simp
  · intro cfg raw hdr body net2
    exact webhookPost_status_net cfg raw hdr body net net2

/-- Claim C8 witness: a send skipped for missing credentials, and a
failed send that returns normally with one attempt. -/
theorem c8_witness :
    sendTextMessage none (some "pid") (some (.str "1555")) "hi"
      (fun _ => NetResult.success) = ⟨.skippedConfig, 0⟩
    ∧ sendTextMessage (some "tk") (some "pid") (some (.str "1555")) "hi"
      (fun _ => NetResult.failure "boom") =
      ⟨.sendFailed (mkOutboundReq "pid" "tk" (some (.str "1555")) "hi") "boom", 1⟩ :=
  ⟨(c8_outbound_sender none (some "pid") (some (.str "1555")) "hi"
      (fun _ => NetResult.success)).1 (Or.inl rfl),
   (c8_outbound_sender (some "tk") (some "pid") (some (.str "1555")) "hi"
      (fun _ => NetResult.failure "boom")).2.1 "boom" (by decide) (by decide) rfl⟩

/-- Claim C5: an authenticated POST with a well-formed envelope answers
200 whatever the number of extracted messages is (zero included) and
whatever the network outcomes are, and initiates exactly one outbound
send per extracted message, whose recipient is that message from
value. -/
theorem c5_acknowledge_and_dispatch (cfg : Config) (raw : Option (List Nat))
    (hdr : Option String) (body : Json) (net : OutboundReq → NetResult)
    (hsig : verifySignature cfg.appSecret raw hdr = .next) (hwf : wfBody body = true) :
    webhookPost cfg raw hdr body net =
      ⟨200, (extractedMessages body).map (sendRecordFor cfg net)⟩
    ∧ (webhookPost cfg raw hdr body net).sends.map SendRecord.toId =
        (extractedMessages body).map msgFrom
    ∧ (webhookPost cfg raw hdr body net).sends.length = (extractedMessages body).length := by
  have hp := processBody_wf cfg net body hwf
  have h1 : webhookPost cfg raw hdr body net =
      ⟨200, (extractedMessages body).map (sendRecordFor cfg net)⟩ := by
    simp [webhookPost, hsig, hp]
  refine ⟨h1, ?_, ?_⟩
  · rw [h1]
    show ((extractedMessages body).map (sendRecordFor cfg net)).map SendRecord.toId
        = (extractedMessages body).map msgFrom
    rw [List.map_map]
    exact List.map_congr_left (fun m _ => rfl)
  · rw [h1]
    show (((extractedMessages body)).map (sendRecordFor cfg net)).length
        = (extractedMessages body).length
    rw [List.length_map]

/-- Claim C5 witness: a concrete authenticated delivery with one message
from 1555 initiates exactly one send addressed to 1555. -/
theorem c5_witness :
    (webhookPost ⟨none, some "s3cret", some "tk", some "pid"⟩ (some [123])
        (some (sigHeaderFor "s3cret" [123]))
        (.obj [("object", .str "whatsapp_business_account"),
               ("entry", .arr [.obj [("changes", .arr [.obj
                 [("field", .str "messages"),
                  ("value", .obj [("messages", .arr [.obj
                    [("from", .str "1555"),
                     ("text", .obj [("body", .str "hi")])]])])]])]])])
        (fun _ => NetResult.success)).sends.map SendRecord.toId
      = [some (Json.str "1555")] :=
  ((c5_acknowledge_and_dispatch ⟨none, some "s3cret", some "tk", some "pid"⟩ (some [123])
      (some (sigHeaderFor "s3cret" [123]))
      (.obj [("object", .str "whatsapp_business_account"),
             ("entry", .arr [.obj [("changes", .arr [.obj
               [("field", .str "messages"),
                ("value", .obj [("messages", .arr [.obj
                  [("from", .str "1555"),
                   ("text", .obj [("body", .str "hi")])]])])]])]])])
      (fun _ => NetResult.success) (by decide) (by decide)).2.1).trans rfl

/-- Claim C6: an authenticated POST whose parseable body has an object
value different from whatsapp_business_account is acknowledged with 200
and initiates no sends. -/
theorem c6_foreign_object_ignored (cfg : Config) (raw : Option (List Nat))
    (hdr : Option String) (body : Json) (net : OutboundReq → NetResult)
    (hsig : verifySignature cfg.appSecret raw hdr = .next)
    (hp : jsParseable body = true)
    (hobj : jsEqStr (msgProp body "object") "whatsapp_business_account" = false) :
    webhookPost cfg raw hdr body net = ⟨200, []⟩ := by
  cases body with
  | obj fields =>
    simp only [msgProp] at hobj
    simp [webhookPost, hsig, processBody, jsProp, hobj]
  | arr l =>
    simp [webhookPost, hsig, processBody, jsProp, jsEqStr]
  | null => simp [jsParseable] at hp
  | bool b2 => simp [jsParseable] at hp
  | num n => simp [jsParseable] at hp
  | str s => simp [jsParseable] at hp

/-- Claim C6 witness: a concrete authenticated delivery with a foreign
object value is acknowledged with no sends. -/
theorem c6_witness :
    webhookPost ⟨none, some "w0rd", none, none⟩ (some [7])
      (some (sigHeaderFor "w0rd" [7])) (.obj [("object", .str "other")])
      (fun _ => NetResult.success) = ⟨200, []⟩ :=
  c6_foreign_object_ignored ⟨none, some "w0rd", none, none⟩ (some [7])
    (some (sigHeaderFor "w0rd" [7])) (.obj [("object", .str "other")])
    (fun _ => NetResult.success) (by decide) (by decide) (by decide)

/-- Claim C1, counterexample: an authenticated POST whose body has the
whatsapp_business_account object but no entry value raises a TypeError
in the extraction loops (the error component of the handler body is set)
and the request terminates with the framework 500 error response instead
of the acknowledged state. -/
theorem c1_counterexample :
    webhookPost ⟨none, some "s", none, none⟩ (some [1]) (some (sigHeaderFor "s" [1]))
        (.obj [("object", .str "whatsapp_business_account")]) (fun _ => NetResult.success)
      = ⟨500, []⟩
    ∧ (processBody ⟨none, some "s", none, none⟩ (fun _ => NetResult.success)
        (.obj [("object", .str "whatsapp_business_account")])).2.isSome = true := by
  exact ⟨rfl, rfl⟩

/-- Claim C1 (amended): extraction tolerates an absent message text and a
change without a truthy value.messages, and a well-formed envelope is
always acknowledged with 200 however many messages it carries; but a
payload with the whatsapp_business_account object whose entry is absent
raises, terminating the authenticated request with 500 and no sends,
not with the acknowledged state. -/
theorem c1_extraction_partial_tolerance (cfg : Config) (raw : Option (List Nat))
    (hdr : Option String) (net : OutboundReq → NetResult)
    (hsig : verifySignature cfg.appSecret raw hdr = .next) :
    (∀ fields, jsEqStr (lookupField fields "object") "whatsapp_business_account" = true →
      lookupField fields "entry" = none →
      webhookPost cfg raw hdr (.obj fields) net = ⟨500, []⟩)
    ∧ (∀ body, wfBody body = true → (webhookPost cfg raw hdr body net).status = 200)
    ∧ (∀ mfields, lookupField mfields "text" = none →
        processMessages cfg net [.obj mfields] =
          ([⟨lookupField mfields "from", replyFor (.str "No Text Body"),
             sendTextMessage cfg.whatsappToken cfg.phoneNumberId
               (lookupField mfields "from") (replyFor (.str "No Text Body")) net⟩],
           none)) := by
  refine ⟨?_, ?_, ?_⟩
  · intro fields hob hent
    simp [webhookPost, hsig, processBody, jsProp, hob, hent]
  · intro body hwf
    simp [webhookPost, hsig, processBody_wf cfg net body hwf]
  · intro mfields htext
    simp [processMessages, jsProp, htext, jsOptChainProp, jsOr, jsTruthy]

/-- Claim C1 witness: a concrete authenticated request with the object
value but no entry terminates 500 with no sends. -/
theorem c1_witness :
    webhookPost ⟨none, some "w", none, none⟩ (some [2]) (some (sigHeaderFor "w" [2]))
        (.obj [("object", .str "whatsapp_business_account")]) (fun _ => NetResult.success)
      = ⟨500, []⟩ :=
  (c1_extraction_partial_tolerance ⟨none, some "w", none, none⟩ (some [2])
      (some (sigHeaderFor "w" [2])) (fun _ => NetResult.success) (by decide)).1
    [("object", .str "whatsapp_business_account")] (by decide) rfl
